import Mathlib

/-!
Verification of the claim validation and categorization engine of
`nuanced_cv` (`src/utils.py`).

The linguistic annotator (spaCy's `nlp`) is an external collaborator: it
turns a raw string into an annotated document.  We embed the document as the
list of its sentences, each sentence a list of tokens carrying exactly the
attributes the engine reads: surface text, coarse POS, fine-grained tag,
dependency label, morphological features, lemma, the looks-like-a-URL flag
and the is-alphabetic flag.  Sentences partition the token sequence, so the
token stream of the document is the concatenation of its sentences.

The two decision functions `is_valid_claim` and `detect_comparison`, the
helper `check_root_verb`, the regular-expression searches for `u/\w+` and
`r/\w+`, the spaCy `Matcher` pattern semantics (token-attribute constraints
with `OP` quantifiers `?` and `*`), the placeholder `detect_other` and the
registry `CATEGORY_FUNCTIONS` are translated from the source.  The Python
predicate `\w` is modelled over its ASCII fragment (letters, digits and the
underscore); `token.lower_` is modelled by characterwise lowercasing; the
floating-point comparison `frac_alpha > 0.6` is modelled by the exact
rational comparison (the double nearest 0.6 lies below 3/5 by about 2e-17,
a gap no quotient of token counts of realistic size can enter, so the two
comparisons agree on all token counts).
-/

namespace NuancedCV

/-- A token of the annotated document, carrying the attributes the engine
reads.  `morph` is the set of morphological feature strings (the code tests
`"VerbForm=Fin" in token.morph`); `lem` is the lemma. -/
structure Token where
  text : String
  pos : String
  tag : String
  dep : String
  morph : List String
  lem : String
  like_url : Bool
  is_alpha : Bool
deriving Repr, DecidableEq

/-- Characterwise lowercasing (Python `str.lower`, over its ASCII
fragment). -/
def strLower (s : String) : String := String.mk (s.data.map Char.toLower)

/-- spaCy's `LOWER` attribute: the lowercased surface form. -/
def Token.lower (t : Token) : String := strLower t.text

/-- A sentence is a contiguous run of tokens. -/
abbrev Sentence := List Token

/-- An annotated document: its sentences, in document order.  The token
sequence of the document is the concatenation of the sentences. -/
abbrev Doc := List Sentence

/-- All tokens of a document, in order (`for token in doc`). -/
def Doc.tokens (doc : Doc) : List Token := doc.flatten

/-! ## `check_root_verb` (src/utils.py lines 9-15) -/

/-- The function `check_root_verb(doc)`: scans sentences, then tokens, returning true on
the first token whose dependency label is `ROOT`, whose coarse POS is `VERB`
or `AUX`, and whose morphology contains `VerbForm=Fin`; false if none. -/
def check_root_verb (doc : Doc) : Bool :=
  doc.any fun sent =>
    sent.any fun token =>
      token.dep = "ROOT" && (token.pos = "VERB" || token.pos = "AUX") &&
        token.morph.contains "VerbForm=Fin"

/-! ## The mention regexes `u/\w+` and `r/\w+` (src/utils.py lines 6-7) -/

/-- Python's `\w`, restricted to its ASCII fragment: letter, digit or
underscore. -/
def isWordChar (c : Char) : Bool := c.isAlphanum || c = '_'

/-- Search `re.search` for the pattern `p/\w+`: true iff some position of the
character list starts with the (case-sensitive) character `p`, then `/`,
then at least one word character. -/
def mentionSearch (p : Char) : List Char → Bool
  | a :: b :: c :: rest =>
      (a = p && b = '/' && isWordChar c) || mentionSearch p (b :: c :: rest)
  | _ => false

/-! ## `is_valid_claim` (src/utils.py lines 18-33) -/

/-- The function `is_valid_claim(text)`: the conjunction of the seven predicates of the
validator, evaluated on the raw text and its annotation `doc = nlp(text)`.
The fraction test `len(alpha_tokens) / max(1, len(doc)) > 0.6` is modelled
exactly as `5 * |alpha| > 3 * max 1 |doc|`. -/
def is_valid_claim (text : String) (doc : Doc) : Bool :=
  let toks := doc.tokens
  let has_verb := check_root_verb doc
  let no_url := !(toks.any fun token => token.like_url)
  let no_scam := !(toks.any fun token => token.text = "scam" || token.text = "legit")
  let no_mentions := !(mentionSearch 'u' text.toList || mentionSearch 'r' text.toList)
  let no_short_claims := decide (toks.length ≥ 3)
  let not_more_than_one_intj :=
    decide (text.toList.count '!' ≤ 1) && decide (doc.length = 1)
  let alpha_tokens := toks.filter fun t => t.is_alpha
  let mostly_alpha := decide (5 * alpha_tokens.length > 3 * max 1 toks.length)
  has_verb && no_url && no_scam && no_mentions && no_short_claims &&
    not_more_than_one_intj && mostly_alpha

/-! ## The spaCy `Matcher` pattern semantics -/

/-- A constraint on one string-valued token attribute: unconstrained, an
exact value, `{"IN": [...]}`, or `{"NOT_IN": [...]}`. -/
inductive StrC where
  | any : StrC
  | eq (s : String) : StrC
  | isIn (l : List String) : StrC
  | notIn (l : List String) : StrC
deriving Repr, DecidableEq

/-- Whether a value satisfies a string constraint. -/
def StrC.sat : StrC → String → Bool
  | .any, _ => true
  | .eq s, v => v = s
  | .isIn l, v => l.contains v
  | .notIn l, v => !(l.contains v)

/-- The `OP` quantifier of one pattern position: exactly one token (the
default), `"?"` (zero or one), `"*"` (zero or more). -/
inductive Op where
  | one : Op
  | opt : Op
  | star : Op
deriving Repr, DecidableEq

/-- One position of a Matcher pattern: constraints on `LOWER`, `POS`,
`TAG` and `LEMMA` (conjoined), plus the quantifier. -/
structure TokenPattern where
  lowerC : StrC
  posC : StrC
  tagC : StrC
  lemC : StrC
  op : Op
deriving Repr, DecidableEq

/-- Whether a token satisfies the attribute constraints of one position. -/
def matchTok (p : TokenPattern) (t : Token) : Bool :=
  p.lowerC.sat t.lower && p.posC.sat t.pos && p.tagC.sat t.tag && p.lemC.sat t.lem

/-- Zero-or-more expansion: consume any number of tokens satisfying `p`,
then continue with `k` on what remains. -/
def starChomp (p : TokenPattern) (k : List Token → Bool) : List Token → Bool
  | [] => k []
  | t :: ts => k (t :: ts) || (matchTok p t && starChomp p k ts)

/-- Whether a pattern matches a prefix of the token list, expanding the
quantifiers. -/
def matchSeq : List TokenPattern → List Token → Bool
  | [], _ => true
  | p :: ps, toks =>
      match p.op with
      | .one =>
          match toks with
          | [] => false
          | t :: ts => matchTok p t && matchSeq ps ts
      | .opt =>
          matchSeq ps toks ||
            (match toks with
             | [] => false
             | t :: ts => matchTok p t && matchSeq ps ts)
      | .star => starChomp p (matchSeq ps) toks

/-- Whether a pattern matches anywhere in the token list (a Matcher match
may be anchored at any position). -/
def matchSomewhere (pats : List TokenPattern) : List Token → Bool
  | [] => matchSeq pats []
  | t :: ts => matchSeq pats (t :: ts) || matchSomewhere pats ts

/-- Whether any pattern of a family matches anywhere in the sentence. -/
def sentHasMatch (fam : List (List TokenPattern)) (sent : Sentence) : Bool :=
  fam.any fun pats => matchSomewhere pats sent

/-- Shorthand for building one pattern position. -/
def pat (l p t lm : StrC) (o : Op) : TokenPattern := ⟨l, p, t, lm, o⟩

/-- The `strict_patterns` list of `detect_comparison`
(src/utils.py lines 40-54). -/
def strict_patterns : List (List TokenPattern) :=
  [ -- as ADV* ADJ as
    [pat (.eq "as") .any .any .any .one,
     pat .any (.eq "ADV") .any .any .star,
     pat .any (.eq "ADJ") .any .any .one,
     pat (.eq "as") .any .any .any .one],
    -- JJR than
    [pat .any .any (.eq "JJR") .any .one,
     pat (.eq "than") .any .any .any .one],
    -- RBR RB* JJ|RB than
    [pat .any .any (.eq "RBR") .any .one,
     pat .any .any (.eq "RB") .any .star,
     pat .any .any (.isIn ["JJ", "RB"]) .any .one,
     pat (.eq "than") .any .any .any .one],
    -- more|less NOUN than
    [pat (.isIn ["more", "less"]) .any .any .any .one,
     pat .any (.eq "NOUN") .any .any .one,
     pat (.eq "than") .any .any .any .one],
    -- more|less than
    [pat (.isIn ["more", "less"]) .any .any .any .one,
     pat (.eq "than") .any .any .any .one],
    -- LEMMA compare, TAG VBN, then ADP
    [pat .any .any (.eq "VBN") (.eq "compare") .one,
     pat .any (.eq "ADP") .any .any .one] ]

/-- The `implicit_patterns` list of `detect_comparison`
(src/utils.py lines 55-62). -/
def implicit_patterns : List (List TokenPattern) :=
  [ -- JJR|JJS with LOWER not in most|least
    [pat (.notIn ["most", "least"]) .any (.isIn ["JJR", "JJS"]) .any .one],
    -- JJR NOUN?
    [pat .any .any (.eq "JJR") .any .one,
     pat .any (.eq "NOUN") .any .any .opt],
    -- more|less NOUN
    [pat (.isIn ["more", "less"]) .any .any .any .one,
     pat .any (.eq "NOUN") .any .any .one],
    -- more|less ADV* ADJ
    [pat (.isIn ["more", "less"]) .any .any .any .one,
     pat .any (.eq "ADV") .any .any .star,
     pat .any (.eq "ADJ") .any .any .one],
    -- RBS ADV* ADJ
    [pat .any .any (.eq "RBS") .any .one,
     pat .any (.eq "ADV") .any .any .star,
     pat .any (.eq "ADJ") .any .any .one] ]

/-! ## `detect_comparison` (src/utils.py lines 35-85) -/

/-- The function `detect_comparison(text)` on the annotation `doc = nlp(text)`: scan the
sentences in document order; in the first sentence with any match, a strict
match yields `(true, "STRICT_COMPARISON")`, otherwise the implicit matches
yield `(true, "IMPLICIT_COMPARISON")`; with no match anywhere the result is
`(false, "")`. -/
def detect_comparison : Doc → Bool × String
  | [] => (false, "")
  | sent :: rest =>
      if sentHasMatch strict_patterns sent then (true, "STRICT_COMPARISON")
      else if sentHasMatch implicit_patterns sent then (true, "IMPLICIT_COMPARISON")
      else detect_comparison rest

/-- The function `detect_other(text)`: the placeholder classifier
(src/utils.py lines 87-91); ignores its input. -/
def detect_other (_doc : Doc) : Bool × String := (false, "")

/-- The table `CATEGORY_FUNCTIONS` (src/utils.py lines 97-102): the registry, in
source order. -/
def CATEGORY_FUNCTIONS : List (String × (Doc → Bool × String)) :=
  [("comparison", detect_comparison), ("other", detect_other)]

/-! ## The seven predicates of the validator, stated as propositions -/

/-- Predicate 1: some sentence has a `ROOT` token with coarse POS `VERB` or
`AUX` whose morphology marks it finite. -/
abbrev HasFiniteRootVerb (doc : Doc) : Prop :=
  ∃ sent ∈ doc, ∃ t ∈ sent,
    t.dep = "ROOT" ∧ (t.pos = "VERB" ∨ t.pos = "AUX") ∧ "VerbForm=Fin" ∈ t.morph

/-- Predicate 2: no token's looks-like-a-URL flag is true. -/
abbrev NoURL (doc : Doc) : Prop := ∀ t ∈ doc.tokens, t.like_url = false

/-- Predicate 3: no token's surface text equals `scam` or `legit` exactly. -/
abbrev NoBannedWord (doc : Doc) : Prop :=
  ∀ t ∈ doc.tokens, t.text ≠ "scam" ∧ t.text ≠ "legit"

/-- The raw text contains a substring matching `p/\w+`: some position holds
the character `p`, then `/`, then at least one word character. -/
abbrev MentionOf (p : Char) (text : String) : Prop :=
  ∃ l w r, text.toList = l ++ p :: '/' :: w :: r ∧ isWordChar w = true

/-- Predicate 4: the raw text contains no substring matching `u/\w+` or
`r/\w+`. -/
abbrev NoMention (text : String) : Prop := ¬ MentionOf 'u' text ∧ ¬ MentionOf 'r' text

/-- Predicate 5: the token count is at least 3. -/
abbrev MinLength (doc : Doc) : Prop := doc.tokens.length ≥ 3

/-- Predicate 6: the raw text has at most one `!` and the annotation has
exactly one sentence. -/
abbrev SingleSentenceLowExcl (text : String) (doc : Doc) : Prop :=
  text.toList.count '!' ≤ 1 ∧ doc.length = 1

/-- Predicate 7: alphabetic tokens over `max 1 (token count)` exceeds 0.6,
as an exact rational comparison. -/
def MostlyAlpha (doc : Doc) : Prop :=
  ((doc.tokens.filter fun t => t.is_alpha).length : ℚ) /
    ((max 1 doc.tokens.length : ℕ) : ℚ) > 0.6

/-! ## Concrete annotated documents, used as witnesses -/

/-- Annotation of "Most people agree." (spaCy tags: Most/JJS, people/NNS,
agree/VBP root, ./PUNCT). -/
def mostDoc : Doc :=
  [[⟨"Most", "ADJ", "JJS", "amod", ["Degree=Sup"], "most", false, true⟩,
    ⟨"people", "NOUN", "NNS", "nsubj", ["Number=Plur"], "people", false, true⟩,
    ⟨"agree", "VERB", "VBP", "ROOT", ["Tense=Pres", "VerbForm=Fin"], "agree",
      false, true⟩,
    ⟨".", "PUNCT", ".", "punct", ["PunctType=Peri"], ".", false, false⟩]]

/-- Annotation of "More money than sense" (More/JJR, money/NN, than/IN,
sense/NN). -/
def moreSent : Sentence :=
  [⟨"More", "ADJ", "JJR", "amod", ["Degree=Cmp"], "more", false, true⟩,
   ⟨"money", "NOUN", "NN", "ROOT", ["Number=Sing"], "money", false, true⟩,
   ⟨"than", "ADP", "IN", "prep", [], "than", false, true⟩,
   ⟨"sense", "NOUN", "NN", "pobj", ["Number=Sing"], "sense", false, true⟩]

/-- Annotation of "The sky is blue." — no comparison pattern matches. -/
def skySent : Sentence :=
  [⟨"The", "DET", "DT", "det", ["Definite=Def"], "the", false, true⟩,
   ⟨"sky", "NOUN", "NN", "nsubj", ["Number=Sing"], "sky", false, true⟩,
   ⟨"is", "AUX", "VBZ", "ROOT", ["Mood=Ind", "Tense=Pres", "VerbForm=Fin"],
     "be", false, true⟩,
   ⟨"blue", "ADJ", "JJ", "acomp", ["Degree=Pos"], "blue", false, true⟩,
   ⟨".", "PUNCT", ".", "punct", ["PunctType=Peri"], ".", false, false⟩]

/-- Annotation of "Cats are animals" (Cats/NNS, are/VBP root finite,
animals/NNS). -/
def catsDoc : Doc :=
  [[⟨"Cats", "NOUN", "NNS", "nsubj", ["Number=Plur"], "cat", false, true⟩,
    ⟨"are", "AUX", "VBP", "ROOT", ["Mood=Ind", "Tense=Pres", "VerbForm=Fin"],
      "be", false, true⟩,
    ⟨"animals", "NOUN", "NNS", "attr", ["Number=Plur"], "animal", false, true⟩]]

/-- Annotation of "u/ab is ok" (u/ab one non-alphabetic token, is/VBZ root
finite, ok/JJ). -/
def mentionDoc : Doc :=
  [[⟨"u/ab", "X", "ADD", "nsubj", [], "u/ab", false, false⟩,
    ⟨"is", "AUX", "VBZ", "ROOT", ["Mood=Ind", "Tense=Pres", "VerbForm=Fin"],
      "be", false, true⟩,
    ⟨"ok", "ADJ", "JJ", "acomp", ["Degree=Pos"], "ok", false, true⟩]]

/-- Annotation of "This is the best idea ever." (best/JJS). -/
def bestDoc : Doc :=
  [[⟨"This", "PRON", "DT", "nsubj", [], "this", false, true⟩,
    ⟨"is", "AUX", "VBZ", "ROOT", ["Mood=Ind", "Tense=Pres", "VerbForm=Fin"],
      "be", false, true⟩,
    ⟨"the", "DET", "DT", "det", ["Definite=Def"], "the", false, true⟩,
    ⟨"best", "ADJ", "JJS", "amod", ["Degree=Sup"], "good", false, true⟩,
    ⟨"idea", "NOUN", "NN", "attr", ["Number=Sing"], "idea", false, true⟩,
    ⟨"ever", "ADV", "RB", "advmod", [], "ever", false, true⟩,
    ⟨".", "PUNCT", ".", "punct", ["PunctType=Peri"], ".", false, false⟩]]

/-- The token "best" as annotated in `bestDoc`. -/
def bestTok : Token :=
  ⟨"best", "ADJ", "JJS", "amod", ["Degree=Sup"], "good", false, true⟩

/-- A capitalized "More" token (as in sentence-initial position). -/
def moreTok : Token :=
  ⟨"More", "ADJ", "JJR", "amod", ["Degree=Cmp"], "more", false, true⟩

/-- The same token with lowercase surface form. -/
def lowMoreTok : Token :=
  ⟨"more", "ADJ", "JJR", "amod", ["Degree=Cmp"], "more", false, true⟩

/-- A document violating the one-ROOT-per-sentence invariant: its single
sentence carries two ROOT tokens, neither a finite verb. -/
def twoRootDoc : Doc :=
  [[⟨"Stop", "VERB", "VB", "ROOT", ["VerbForm=Inf"], "stop", false, true⟩,
    ⟨"now", "ADV", "RB", "ROOT", [], "now", false, true⟩]]

/-! ## Helper lemmas -/

theorem mentionSearch_cons (p a : Char) (cs : List Char)
    (h : mentionSearch p cs = true) : mentionSearch p (a :: cs) = true := by
  match cs, h with
  | b :: c :: rest, h => simp [mentionSearch, h]

/-- Search `re.search(p/\w+, text)` succeeds exactly when the text contains the
character `p`, a slash, and a word character, consecutively. -/
theorem mentionSearch_iff (p : Char) (cs : List Char) :
    mentionSearch p cs = true ↔
      ∃ l w r, cs = l ++ p :: '/' :: w :: r ∧ isWordChar w = true := by
  induction cs with
  | nil =>
      constructor
      · intro h; exact absurd h (by simp [mentionSearch])
      · rintro ⟨l, w, r, h, -⟩
        have := congrArg List.length h
        simp [List.length_append] at this
        omega
  | cons a cs ih =>
      rcases cs with _ | ⟨b, cs'⟩
      · constructor
        · intro h; exact absurd h (by simp [mentionSearch])
        · rintro ⟨l, w, r, h, -⟩
          have := congrArg List.length h
          simp [List.length_append] at this
          omega
      · rcases cs' with _ | ⟨c, rest⟩
        · constructor
          · intro h; exact absurd h (by simp [mentionSearch])
          · rintro ⟨l, w, r, h, -⟩
            have := congrArg List.length h
            simp [List.length_append] at this
            omega
        · constructor
          · intro h
            simp only [mentionSearch, Bool.or_eq_true, Bool.and_eq_true,
              decide_eq_true_eq] at h
            rcases h with ⟨⟨hp, hs⟩, hw⟩ | h2
            · exact ⟨[], c, rest, by simp [hp, hs], hw⟩
            · obtain ⟨l, w, r, heq, hw⟩ := ih.mp h2
              exact ⟨a :: l, w, r, by simp [heq], hw⟩
          · rintro ⟨l, w, r, heq, hw⟩
            rcases l with _ | ⟨x, l'⟩
            · simp only [List.nil_append, List.cons.injEq] at heq
              obtain ⟨ha, hb, hc, hr⟩ := heq
              simp [mentionSearch, ha, hb, hc, hw]
            · simp only [List.cons_append, List.cons.injEq] at heq
              obtain ⟨-, htail⟩ := heq
              exact mentionSearch_cons p a _ (ih.mpr ⟨l', w, r, htail, hw⟩)

/-- The integer test of the validator agrees with the exact rational
reading of `frac_alpha > 0.6`. -/
theorem mostly_alpha_ratl (a n : ℕ) :
    (5 * a > 3 * max 1 n) ↔ ((a : ℚ) / ((max 1 n : ℕ) : ℚ) > 0.6) := by
  have hb0 : 0 < max 1 n := lt_of_lt_of_le Nat.zero_lt_one (le_max_left 1 n)
  have hb : (0 : ℚ) < ((max 1 n : ℕ) : ℚ) := by exact_mod_cast hb0
  constructor
  · intro h
    rw [gt_iff_lt, lt_div_iff₀ hb]
    have h' : (3 : ℚ) * ((max 1 n : ℕ) : ℚ) < 5 * (a : ℚ) := by exact_mod_cast h
    nlinarith
  · intro h
    rw [gt_iff_lt, lt_div_iff₀ hb] at h
    have h' : (3 : ℚ) * ((max 1 n : ℕ) : ℚ) < 5 * (a : ℚ) := by nlinarith
    exact_mod_cast h'

theorem check_root_verb_iff (doc : Doc) :
    check_root_verb doc = true ↔ HasFiniteRootVerb doc := by
  simp [check_root_verb, HasFiniteRootVerb, List.any_eq_true, and_assoc]

/-- Characterization of `is_valid_claim` as the conjunction of the seven
predicates. -/
theorem is_valid_claim_iff (text : String) (doc : Doc) :
    is_valid_claim text doc = true ↔
      HasFiniteRootVerb doc ∧ NoURL doc ∧ NoBannedWord doc ∧ NoMention text ∧
        MinLength doc ∧ SingleSentenceLowExcl text doc ∧ MostlyAlpha doc := by
  simp only [is_valid_claim, Bool.and_eq_true, check_root_verb_iff,
    Bool.not_eq_true', List.any_eq_false, Bool.or_eq_false_iff,
    decide_eq_true_eq]
  constructor
  · rintro ⟨⟨⟨⟨⟨⟨h1, h2⟩, h3⟩, h4u, h4r⟩, h5⟩, h6⟩, h7⟩
    refine ⟨h1, ?_, ?_, ⟨?_, ?_⟩, h5, h6, ?_⟩
    · intro t ht
      simpa using h2 t ht
    · intro t ht
      have := h3 t ht
      simp at this
      exact this
    · intro hm
      exact absurd ((mentionSearch_iff 'u' text.toList).mpr hm)
        (Bool.eq_false_iff.mp h4u)
    · intro hm
      exact absurd ((mentionSearch_iff 'r' text.toList).mpr hm)
        (Bool.eq_false_iff.mp h4r)
    · exact (mostly_alpha_ratl _ _).mp h7
  · rintro ⟨h1, h2, h3, ⟨h4u, h4r⟩, h5, h6, h7⟩
    refine ⟨⟨⟨⟨⟨⟨h1, ?_⟩, ?_⟩, ?_, ?_⟩, h5⟩, h6⟩, ?_⟩
    · intro t ht
      simpa using h2 t ht
    · intro t ht
      simp [(h3 t ht).1, (h3 t ht).2]
    · exact Bool.eq_false_iff.mpr fun hu =>
        h4u ((mentionSearch_iff 'u' text.toList).mp hu)
    · exact Bool.eq_false_iff.mpr fun hr =>
        h4r ((mentionSearch_iff 'r' text.toList).mp hr)
    · exact (mostly_alpha_ratl _ _).mpr h7

theorem detect_head_match (sent : Sentence) (rest : Doc)
    (h : sentHasMatch strict_patterns sent = true ∨
      sentHasMatch implicit_patterns sent = true) :
    detect_comparison (sent :: rest) =
      (true,
        if sentHasMatch strict_patterns sent then "STRICT_COMPARISON"
        else "IMPLICIT_COMPARISON") := by
  cases hs : sentHasMatch strict_patterns sent
  · rcases h with h | h
    · rw [hs] at h; cases h
    · simp [detect_comparison, hs, h]
  · simp [detect_comparison, hs]

theorem detect_skip (pre rest : Doc)
    (h : ∀ s ∈ pre, sentHasMatch strict_patterns s = false ∧
      sentHasMatch implicit_patterns s = false) :
    detect_comparison (pre ++ rest) = detect_comparison rest := by
  induction pre with
  | nil => rfl
  | cons s pre ih =>
      have hs := h s (List.mem_cons_self s pre)
      rw [List.cons_append]
      simp only [detect_comparison, hs.1, hs.2, Bool.false_eq_true, if_false]
      exact ih fun s' hs' => h s' (List.mem_cons_of_mem s hs')

theorem detect_none (doc : Doc)
    (h : ∀ s ∈ doc, sentHasMatch strict_patterns s = false ∧
      sentHasMatch implicit_patterns s = false) :
    detect_comparison doc = (false, "") := by
  rw [← List.append_nil doc, detect_skip doc [] h]
  rfl

theorem detect_label_mem (doc : Doc) :
    (detect_comparison doc).2 = "STRICT_COMPARISON" ∨
      (detect_comparison doc).2 = "IMPLICIT_COMPARISON" ∨
      (detect_comparison doc).2 = "" := by
  induction doc with
  | nil => right; right; rfl
  | cons s rest ih =>
      by_cases hs : sentHasMatch strict_patterns s = true
      · left; simp [detect_comparison, hs]
      · by_cases hi : sentHasMatch implicit_patterns s = true
        · right; left
          simp [detect_comparison, hs, hi]
        · simpa [detect_comparison, hs, hi] using ih

theorem detect_flag_iff (doc : Doc) :
    (detect_comparison doc).1 = true ↔ (detect_comparison doc).2 ≠ "" := by
  induction doc with
  | nil => simp [detect_comparison]
  | cons s rest ih =>
      by_cases hs : sentHasMatch strict_patterns s = true
      · simp [detect_comparison, hs]
      · by_cases hi : sentHasMatch implicit_patterns s = true
        · simp [detect_comparison, hs, hi]
        · simpa [detect_comparison, hs, hi] using ih

/-! ## The claims -/

/-- Claim C1: for every input text, `is_valid_claim` returns true if and only
if all seven predicates hold of the same annotated text: finite root verb,
no URL token, no `scam`/`legit` token, no `u/`- or `r/`-mention in the raw
text, at least 3 tokens, at most one `!` with exactly one sentence, and an
alphabetic-token fraction strictly above 0.6.  Any single predicate failing
makes the result false. -/
theorem C1_seven_predicates (text : String) (doc : Doc) :
    is_valid_claim text doc = true ↔
      HasFiniteRootVerb doc ∧ NoURL doc ∧ NoBannedWord doc ∧ NoMention text ∧
        MinLength doc ∧ SingleSentenceLowExcl text doc ∧ MostlyAlpha doc :=
  is_valid_claim_iff text doc

theorem C1_witness : is_valid_claim "Cats are animals" catsDoc = true :=
  (C1_seven_predicates "Cats are animals" catsDoc).mpr
    ⟨by decide, by decide, by decide,
      ⟨fun hm => absurd ((mentionSearch_iff 'u' _).mpr hm) (by decide),
        fun hm => absurd ((mentionSearch_iff 'r' _).mpr hm) (by decide)⟩,
      by decide, by decide, (mostly_alpha_ratl _ _).mp (by decide)⟩

/-- Claim C2: `detect_comparison` scans sentences in document order; the
first sentence with any match determines the result (later sentences never
matter), with strict matches beating implicit ones inside that sentence; if
nothing matches anywhere the result is `(false, "")`; the label is always
`STRICT_COMPARISON`, `IMPLICIT_COMPARISON` or empty, and the boolean is
true exactly when the label is nonempty. -/
theorem C2_scan_short_circuit (doc : Doc) :
    ((detect_comparison doc).2 = "STRICT_COMPARISON" ∨
      (detect_comparison doc).2 = "IMPLICIT_COMPARISON" ∨
      (detect_comparison doc).2 = "") ∧
    ((detect_comparison doc).1 = true ↔ (detect_comparison doc).2 ≠ "") ∧
    (∀ pre sent post, doc = pre ++ sent :: post →
      (∀ s ∈ pre, sentHasMatch strict_patterns s = false ∧
        sentHasMatch implicit_patterns s = false) →
      (sentHasMatch strict_patterns sent = true ∨
        sentHasMatch implicit_patterns sent = true) →
      detect_comparison doc =
        (true,
          if sentHasMatch strict_patterns sent then "STRICT_COMPARISON"
          else "IMPLICIT_COMPARISON")) ∧
    ((∀ s ∈ doc, sentHasMatch strict_patterns s = false ∧
      sentHasMatch implicit_patterns s = false) →
      detect_comparison doc = (false, "")) := by
  refine ⟨detect_label_mem doc, detect_flag_iff doc, ?_, detect_none doc⟩
  rintro pre sent post rfl hpre hmatch
  rw [detect_skip pre (sent :: post) hpre]
  exact detect_head_match sent post hmatch

theorem C2_witness :
    detect_comparison [skySent, moreSent] = (true, "STRICT_COMPARISON") := by
  have h := (C2_scan_short_circuit [skySent, moreSent]).2.2.1 [skySent]
    moreSent [] rfl (by decide) (Or.inl (by decide))
  exact h.trans (by decide)

/-- Claim C3 counterexample: the claim quantifies over texts satisfying
predicates 1, 2, 3, 5, 7 together with the single-sentence and
at-most-one-`!` conditions, but omits predicate 4 (no mentions).  The text
`u/ab is ok` with its annotation satisfies every hypothesis of the claim,
yet `is_valid_claim` returns false because of the `u/ab` mention. -/
theorem C3_counterexample :
    mentionDoc.length = 1 ∧ ("u/ab is ok").toList.count '!' ≤ 1 ∧
    HasFiniteRootVerb mentionDoc ∧ NoURL mentionDoc ∧
    NoBannedWord mentionDoc ∧ MinLength mentionDoc ∧ MostlyAlpha mentionDoc ∧
    is_valid_claim "u/ab is ok" mentionDoc = false :=
  ⟨by decide, by decide, by decide, by decide, by decide, by decide,
    (mostly_alpha_ratl _ _).mp (by decide), by decide⟩

/-- Claim C3 (amended): for every text whose annotation has exactly one
sentence, that contains zero or one `!`, and that satisfies predicates 1
(finite root verb), 2 (no URL token), 3 (no scam/legit token), **4 (no
`u/`- or `r/`-mention)**, 5 (at least 3 tokens) and 7 (alphabetic fraction
above 0.6), `is_valid_claim` returns true; and for any text whose `!` count
is 2, `is_valid_claim` returns false whatever the rest looks like. -/
theorem C3_exclamation_flip (text : String) (doc : Doc)
    (h1 : HasFiniteRootVerb doc) (h2 : NoURL doc) (h3 : NoBannedWord doc)
    (h4 : NoMention text) (h5 : MinLength doc)
    (h6 : text.toList.count '!' ≤ 1) (h7 : doc.length = 1)
    (h8 : MostlyAlpha doc) :
    is_valid_claim text doc = true ∧
      ∀ (text2 : String) (doc2 : Doc), text2.toList.count '!' = 2 →
        is_valid_claim text2 doc2 = false := by
  constructor
  · exact (is_valid_claim_iff text doc).mpr ⟨h1, h2, h3, h4, h5, ⟨h6, h7⟩, h8⟩
  · intro text2 doc2 hc
    cases hv : is_valid_claim text2 doc2
    · rfl
    · have h6' := ((is_valid_claim_iff text2 doc2).mp hv).2.2.2.2.2.1.1
      omega

theorem C3_witness :
    is_valid_claim "Cats are animals" catsDoc = true ∧
      is_valid_claim "Cats are animals!!" catsDoc = false := by
  have h := C3_exclamation_flip "Cats are animals" catsDoc (by decide)
    (by decide) (by decide)
    ⟨fun hm => absurd ((mentionSearch_iff 'u' _).mpr hm) (by decide),
      fun hm => absurd ((mentionSearch_iff 'r' _).mpr hm) (by decide)⟩
    (by decide) (by decide) (by decide) ((mostly_alpha_ratl _ _).mp (by decide))
  exact ⟨h.1, h.2 "Cats are animals!!" catsDoc (by decide)⟩

/-- Claim C4: a single token tagged JJR or JJS matches the standalone
implicit pattern exactly when its lowercase surface form is neither `most`
nor `least`; and on the annotation of "Most people agree.", whose only
comparative-tagged token is `Most`, `detect_comparison` returns
`(false, "")`. -/
theorem C4_most_least_excluded :
    (∀ t : Token, (t.tag = "JJR" ∨ t.tag = "JJS") →
      (matchTok (pat (.notIn ["most", "least"]) .any (.isIn ["JJR", "JJS"])
          .any .one) t = true ↔
        (t.lower ≠ "most" ∧ t.lower ≠ "least"))) ∧
    detect_comparison mostDoc = (false, "") := by
  constructor
  · intro t ht
    rcases ht with h | h <;>
      simp [matchTok, pat, StrC.sat, h, List.elem_iff, and_comm]
  · decide

theorem C4_witness :
    matchTok (pat (.notIn ["most", "least"]) .any (.isIn ["JJR", "JJS"])
      .any .one) bestTok = true :=
  (C4_most_least_excluded.1 bestTok (Or.inr (by decide))).mpr (by decide)

/-- Claim C5: on input whose annotation has no tokens (the empty and
whitespace-only strings, per the annotator contract), `is_valid_claim`
returns false — predicate 5 fails and the fraction's denominator
`max 1 0` prevents division by zero — and `detect_comparison`, finding no
sentence with a match, returns `(false, "")`; both are total functions, so
neither raises. -/
theorem C5_degenerate_input (text : String) (doc : Doc)
    (h : doc.tokens = []) :
    is_valid_claim text doc = false ∧ detect_comparison doc = (false, "") := by
  constructor
  · cases hv : is_valid_claim text doc
    · rfl
    · have h5 := ((is_valid_claim_iff text doc).mp hv).2.2.2.2.1
      rw [MinLength, h] at h5
      simp at h5
  · refine detect_none doc fun s hs => ?_
    have hnil : s = [] := by
      have := List.flatten_eq_nil_iff.mp h
      exact this s hs
    rw [hnil]
    exact ⟨by decide, by decide⟩

theorem C5_witness :
    (is_valid_claim "" [] = false ∧ detect_comparison ([] : Doc) = (false, "")) ∧
      is_valid_claim "   " [] = false :=
  ⟨C5_degenerate_input "" [] rfl, (C5_degenerate_input "   " [] rfl).1⟩

/-- Claim C6: `check_root_verb` is a total existential over all tokens of all
sentences: it returns true exactly when some token is a finite `VERB`/`AUX`
`ROOT`, and therefore returns false (rather than raising) on any annotation
violating the one-ROOT-per-sentence invariant — zero ROOTs, several ROOTs,
or a ROOT that is not a finite verb. -/
theorem C6_root_verb_existential (doc : Doc) :
    (check_root_verb doc = true ↔ HasFiniteRootVerb doc) ∧
      (¬ HasFiniteRootVerb doc → check_root_verb doc = false) := by
  refine ⟨check_root_verb_iff doc, fun hn => ?_⟩
  cases hv : check_root_verb doc
  · rfl
  · exact absurd ((check_root_verb_iff doc).mp hv) hn

theorem C6_witness : check_root_verb twoRootDoc = false :=
  (C6_root_verb_existential twoRootDoc).2 (by decide)

/-- Claim C7: the category registry holds exactly the entries `comparison`
(the comparison detector) and `other` (the placeholder), in that order, and
the placeholder returns `(false, "")` on every input. -/
theorem C7_registry :
    CATEGORY_FUNCTIONS =
      [("comparison", detect_comparison), ("other", detect_other)] ∧
      ∀ doc : Doc, detect_other doc = (false, "") :=
  ⟨rfl, fun _ => rfl⟩

/-- Claim C8: both decision functions are deterministic — two calls on the
same input yield identical results.  In this embedding both are pure
functions: the Python code rebuilds its `Matcher` from the read-only
vocabulary on every call and keeps no state across calls, which is what
makes the pure embedding faithful. -/
theorem C8_deterministic (text : String) (doc : Doc) :
    is_valid_claim text doc = is_valid_claim text doc ∧
      detect_comparison doc = detect_comparison doc :=
  ⟨rfl, rfl⟩

/-- Claim C9: every pattern position reads only the lowercased surface form,
the POS, the tag and the lemma of a token, never its raw capitalization, so
two tokens differing only in capitalization match identically; in
particular, the annotation of "More money than sense" with sentence-initial
capitalized `More` triggers the strict more/less-NOUN-than pattern. -/
theorem C9_lowercase_anchors :
    (∀ (p : TokenPattern) (t t' : Token), t.lower = t'.lower →
      t.pos = t'.pos → t.tag = t'.tag → t.lem = t'.lem →
        matchTok p t = matchTok p t') ∧
    matchSomewhere
      [pat (.isIn ["more", "less"]) .any .any .any .one,
        pat .any (.eq "NOUN") .any .any .one,
        pat (.eq "than") .any .any .any .one] moreSent = true ∧
    detect_comparison [moreSent] = (true, "STRICT_COMPARISON") := by
  refine ⟨fun p t t' h1 h2 h3 h4 => ?_, by decide, by decide⟩
  simp only [matchTok, h1, h2, h3, h4]

theorem C9_witness :
    matchTok (pat (.isIn ["more", "less"]) .any .any .any .one) moreTok =
      matchTok (pat (.isIn ["more", "less"]) .any .any .any .one) lowMoreTok :=
  C9_lowercase_anchors.1 _ moreTok lowMoreTok (by decide) rfl rfl rfl

/-- Claim C10: the mention predicate is case-sensitive: the search succeeds
exactly when the text contains a lowercase `u` or `r`, then `/`, then a
word character; uppercase `U/someone` and `R/somewhere` are not caught. -/
theorem C10_mention_case_sensitive (text : String) :
    ((mentionSearch 'u' text.toList || mentionSearch 'r' text.toList) = true ↔
      (MentionOf 'u' text ∨ MentionOf 'r' text)) ∧
    (mentionSearch 'u' "U/someone".toList ||
      mentionSearch 'r' "U/someone".toList) = false ∧
    (mentionSearch 'u' "R/somewhere".toList ||
      mentionSearch 'r' "R/somewhere".toList) = false := by
  refine ⟨?_, by decide, by decide⟩
  rw [Bool.or_eq_true, mentionSearch_iff, mentionSearch_iff]

theorem C10_witness :
    (mentionSearch 'u' "u/ab is ok".toList ||
      mentionSearch 'r' "u/ab is ok".toList) = true :=
  (C10_mention_case_sensitive "u/ab is ok").1.mpr
    (Or.inl ⟨[], 'a', "b is ok".toList, by decide, by decide⟩)

end NuancedCV
